import Mathlib

/-!
Shallow embedding of `jax/experimental/global_device_array.py`.

The Python module computes, from a global array shape, a device mesh and a
per-axis partition assignment (`mesh_axes`), the slice of the global array
("Index") owned by every device together with a replica id, and wraps local
device buffers into a `GlobalDeviceArray` aggregate.

Modelling conventions:
* Python `slice(start, stop)` objects become `(start, stop)` pairs of naturals;
  an `Index` (tuple of slices) becomes a list of such pairs.  The structural
  hash `_hashed_index` is injective on that data, so it is modelled by the
  index value itself.
* Python exceptions (`AssertionError`, `ValueError`, `IndexError`, `KeyError`,
  `ZeroDivisionError`, the `RuntimeError` of the unique-shard check, and the
  length assertion inside `safe_zip`) become constructors of `GdaError`, and
  fallible functions return `Except GdaError _`.
* The external partition resolver `_get_indices` (built on
  `pxla.spec_to_indices`, out of scope for this module) is a function
  parameter `resolve`.
* `global_mesh.shape` (an ordered dict from axis name to axis size) is
  modelled by a total function `axisSize`; `global_mesh.devices.flat` and
  `global_mesh.local_devices` are lists.
* The `@cache()` decorator memoizes a pure function; extensionally the cached
  wrapper is the wrapped function, so it is modelled as a plain call.
* `pxla._set_aval` only attaches an abstract value to a buffer and is
  modelled as the identity.
-/

namespace GDA

/-- An `Index` is a tuple of `(start, stop)` slice bounds, one per array axis. -/
abbrev Index := List (Nat × Nat)

/-- A device: opaque identity plus the index of its home process. -/
structure Device where
  id : Nat
  processIndex : Nat
deriving DecidableEq

/-- The device mesh: named axis sizes, the flattened global device list
(`mesh.devices.flat`) and the devices local to the current process. -/
structure Mesh where
  axisSize : String → Nat
  devices : List Device
  local_devices : List Device
deriving Inhabited

/-- One entry of a `PartitionSpec`: `None`, a single mesh-axis name, or a
tuple of mesh-axis names. -/
inductive MeshAxis where
  | unassigned : MeshAxis
  | single : String → MeshAxis
  | tuple : List String → MeshAxis
deriving DecidableEq

/-- Python truthiness of a `PartitionSpec` entry: `None`, the empty string and
the empty tuple are falsy (`if not mesh_axis:`). -/
def MeshAxis.isFalsy : MeshAxis → Bool
  | .unassigned => true
  | .single n => decide (n = "")
  | .tuple ns => decide (ns = [])

/-- Python exceptions raised by this module. -/
inductive GdaError where
  | safeZipMismatch : GdaError
  | valueError : GdaError
  | assertionShapeMismatch : GdaError
  | assertionDtypeMismatch : GdaError
  | indexError : GdaError
  | keyError : GdaError
  | zeroDivision : GdaError
  | runtimeShardMismatch : Nat → Nat → GdaError
deriving DecidableEq

/-- `get_shard_shape(global_shape, global_mesh, mesh_axes)`: per-axis shard
size via truncating integer division; trailing axes beyond the partition
assignment are copied from the global shape. -/
def get_shard_shape (global_shape : List Nat) (global_mesh : Mesh)
    (mesh_axes : List MeshAxis) : List Nat :=
  let chunk_size := (mesh_axes.zip global_shape).map (fun p =>
    if p.1.isFalsy then p.2
    else match p.1 with
      | .tuple ns => p.2 / (ns.map global_mesh.axisSize).prod
      | .single n => p.2 / global_mesh.axisSize n
      | .unassigned => p.2)
  chunk_size ++ global_shape.drop chunk_size.length

/-- The loop body of `_get_shard_indices_replica_ids_uncached`: walk the
`(device, index)` pairs keeping a per-index running count `c`
(`index_to_replica`); emit `(device, index, replica_id)` and the number of
indices seen for the first time (`unique_shards`). -/
def replicaScan (c : Index → Nat) :
    List (Device × Index) → List (Device × Index × Nat) × Nat
  | [] => ([], 0)
  | (d, i) :: rest =>
    let rid := c i
    let r := replicaScan (fun j => if j = i then rid + 1 else c j) rest
    ((d, i, rid) :: r.1, (if rid = 0 then 1 else 0) + r.2)

/-- The list comprehension
`[g // s for g, s in safe_zip(global_shape, shard_shape) if g != 0 or s != 0]`:
division by a zero shard size raises `ZeroDivisionError`. -/
def expectedDivisors : List (Nat × Nat) → Except GdaError (List Nat)
  | [] => .ok []
  | (g, s) :: rest =>
    if g ≠ 0 ∨ s ≠ 0 then
      if s = 0 then .error .zeroDivision
      else (expectedDivisors rest).map (fun ds => (g / s) :: ds)
    else expectedDivisors rest

/-- `prod([g // s for g, s in safe_zip(global_shape, shard_shape) if ...])`. -/
def expectedUniqueShards (global_shape shard_shape : List Nat) :
    Except GdaError Nat :=
  if global_shape.length ≠ shard_shape.length then .error .safeZipMismatch
  else (expectedDivisors (global_shape.zip shard_shape)).map List.prod

/-- The external partition resolver `_get_indices`
(`pxla.spec_to_indices`), supplied as a parameter. -/
abbrev Resolver := List Nat → Mesh → List MeshAxis → List Index

/-- `_get_shard_indices_replica_ids_uncached`: resolve the per-device index
sequence, assign replica ids in resolver order, and check the unique-shard
count against the prediction derived from `get_shard_shape`. -/
def get_shard_indices_replica_ids_uncached (resolve : Resolver)
    (global_shape : List Nat) (global_mesh : Mesh) (mesh_axes : List MeshAxis) :
    Except GdaError (List (Device × Index × Nat)) :=
  let indices := resolve global_shape global_mesh mesh_axes
  if global_mesh.devices.length ≠ indices.length then .error .safeZipMismatch
  else
    let r := replicaScan (fun _ => 0) (global_mesh.devices.zip indices)
    match expectedUniqueShards global_shape
        (get_shard_shape global_shape global_mesh mesh_axes) with
    | .error e => .error e
    | .ok expected =>
      if expected ≠ r.2 then .error (.runtimeShardMismatch expected r.2)
      else .ok r.1

/-- `get_shard_indices_replica_ids`: the `@cache()`-wrapped entry point; the
memoization of a pure function is extensionally the function itself. -/
def get_shard_indices_replica_ids (resolve : Resolver) (global_shape : List Nat)
    (global_mesh : Mesh) (mesh_axes : List MeshAxis) :
    Except GdaError (List (Device × Index × Nat)) :=
  get_shard_indices_replica_ids_uncached resolve global_shape global_mesh mesh_axes

/-- A host-side array-like value: shape, dtype and payload. -/
structure HostArray where
  shape : List Nat
  dtype : Nat
  data : List Int
deriving DecidableEq

/-- A device buffer: a host array resident on a device (`xc.Buffer`). -/
structure Buffer where
  device : Device
  arr : HostArray
deriving DecidableEq

/-- `jax.device_put(value, device)`. -/
def device_put (a : HostArray) (d : Device) : Buffer := ⟨d, a⟩

/-- `_GdaFastPathArgs`: a precomputed device table plus the local-device
ordering it was computed against. -/
structure FastPathArgs where
  global_indices_replica_ids : List (Device × Index × Nat)
  local_devices : List Device

/-- A single data shard of a `GlobalDeviceArray`; `data` is `none` for a
shard on a non-local device. -/
structure Shard where
  device : Device
  index : Index
  replica_id : Nat
  data : Option Buffer
deriving DecidableEq

/-- The `GlobalDeviceArray` aggregate after a successful `__init__`. -/
structure GlobalDeviceArray where
  global_shape : List Nat
  mesh : Mesh
  mesh_axes : List MeshAxis
  device_buffers : List Buffer
  fast_path : Option FastPathArgs
  local_devices : List Device
  dtype : Nat
  current_process : Nat
deriving Inhabited

/-- The device-order check of `__init__`: `db.device() != ld` for each pair
of `safe_zip(device_buffers, self._local_devices)`. -/
def deviceOrderOk (device_buffers : List Buffer) (local_devices : List Device) :
    Bool :=
  (device_buffers.zip local_devices).all (fun p => decide (p.1.device = p.2))

/-- `GlobalDeviceArray.__init__`: validation checks (skippable via the
`_enable_checks` flag unless `config.jax_enable_checks` is set), then the
unconditional read of `device_buffers[0].dtype`. -/
def GlobalDeviceArray.init (global_shape : List Nat) (global_mesh : Mesh)
    (mesh_axes : List MeshAxis) (device_buffers : List Buffer)
    (gda_fast_path_args : Option FastPathArgs) (current_process : Nat)
    (enable_checks jax_enable_checks : Bool) :
    Except GdaError GlobalDeviceArray :=
  let local_devices := match gda_fast_path_args with
    | none => global_mesh.local_devices
    | some f => f.local_devices
  let checks := enable_checks || jax_enable_checks
  if checks ∧ device_buffers.length ≠ local_devices.length then
    .error .safeZipMismatch
  else if checks ∧ ¬ deviceOrderOk device_buffers local_devices then
    .error .valueError
  else if checks ∧ ¬ device_buffers.all
      (fun db => decide (db.arr.shape =
        get_shard_shape global_shape global_mesh mesh_axes)) then
    .error .assertionShapeMismatch
  else match device_buffers.head? with
    | none => .error .indexError
    | some b0 =>
      if checks ∧ ¬ device_buffers.all
          (fun db => decide (db.arr.dtype = b0.arr.dtype)) then
        .error .assertionDtypeMismatch
      else .ok
        { global_shape := global_shape
          mesh := global_mesh
          mesh_axes := mesh_axes
          device_buffers := device_buffers
          fast_path := gda_fast_path_args
          local_devices := local_devices
          dtype := b0.arr.dtype
          current_process := current_process }

/-- `local_data(index)`: Python list indexing on `self._device_buffers`
(negative positions count from the end; out of `[-n, n)` raises
`IndexError`). -/
def local_data (gda : GlobalDeviceArray) (i : Int) : Except GdaError Buffer :=
  let n : Int := gda.device_buffers.length
  let j : Int := if i < 0 then i + n else i
  if 0 ≤ j ∧ j < n then
    match gda.device_buffers[j.toNat]? with
    | some b => .ok b
    | none => .error .indexError
  else .error .indexError

/-- `is_fully_replicated`: `self.shape == self.local_data(0).shape`. -/
def is_fully_replicated (gda : GlobalDeviceArray) : Except GdaError Bool :=
  (local_data gda 0).map (fun b => decide (gda.global_shape = b.arr.shape))

/-- Python dict lookup `mapping[device]` on a device table. -/
def lookupRid (table : List (Device × Index × Nat)) (d : Device) :
    Except GdaError (Index × Nat) :=
  match table.find? (fun p => decide (p.1 = d)) with
  | some p => .ok p.2
  | none => .error .keyError

/-- An explicitly recursive effectful map over `Except`, used wherever the
Python code runs a loop or comprehension that may raise. -/
def mapME (f : α → Except GdaError β) : List α → Except GdaError (List β)
  | [] => .ok []
  | a :: as => do
    let b ← f a
    let bs ← mapME f as
    .ok (b :: bs)

/-- The loop of `_create_local_shards`: for each local buffer, look up its
device's `(index, replica_id)` and wrap everything in a `Shard` carrying
the buffer. -/
def create_local_shards_loop (table : List (Device × Index × Nat)) :
    List Buffer → Except GdaError (List Shard)
  | [] => .ok []
  | db :: rest => do
    let p ← lookupRid table db.device
    let out ← create_local_shards_loop table rest
    .ok (Shard.mk db.device p.1 p.2 (some db) :: out)

/-- `local_shards` (via `_create_local_shards`): use the fast-path table if
present, else the cached device table. -/
def local_shards (resolve : Resolver) (gda : GlobalDeviceArray) :
    Except GdaError (List Shard) := do
  let table ← match gda.fast_path with
    | some fp => .ok fp.global_indices_replica_ids
    | none =>
        get_shard_indices_replica_ids resolve gda.global_shape gda.mesh gda.mesh_axes
  create_local_shards_loop table gda.device_buffers

/-- `{db.device(): db for db in self._device_buffers}`: device-keyed dict of
the local buffers; later entries win, hence the reversed search. -/
def deviceToBuffer (device_buffers : List Buffer) (d : Device) :
    Option Buffer :=
  device_buffers.reverse.find? (fun db => decide (db.device = d))

/-- The loop of `global_shards` over the full device table: local devices get
their buffer (a missing one is a `KeyError`), remote devices get `none`. -/
def global_shards_loop (device_buffers : List Buffer) (current_process : Nat) :
    List (Device × Index × Nat) → Except GdaError (List Shard)
  | [] => .ok []
  | (d, idx, rid) :: rest => do
    let buf ← if d.processIndex = current_process then
        match deviceToBuffer device_buffers d with
        | some b => Except.ok (some b)
        | none => Except.error GdaError.keyError
      else .ok none
    let out ← global_shards_loop device_buffers current_process rest
    .ok (Shard.mk d idx rid buf :: out)

/-- `global_shards`: in the single-process case (mesh size equals the
local-device count) return `local_shards` unchanged, else build the full
table. -/
def global_shards (resolve : Resolver) (gda : GlobalDeviceArray) :
    Except GdaError (List Shard) :=
  if gda.mesh.devices.length = gda.local_devices.length then
    local_shards resolve gda
  else do
    let table ←
      get_shard_indices_replica_ids resolve gda.global_shape gda.mesh gda.mesh_axes
    global_shards_loop gda.device_buffers gda.current_process table

/-- `GlobalDeviceArray.from_callback`: resolve the device table, call the
callback once per local device on that device's index, place the result on
the device, and construct the aggregate with the fast-path table and
checks enabled. -/
def from_callback (resolve : Resolver) (global_shape : List Nat)
    (global_mesh : Mesh) (mesh_axes : List MeshAxis)
    (data_callback : Index → HostArray) (current_process : Nat)
    (jax_enable_checks : Bool) : Except GdaError GlobalDeviceArray := do
  let table ←
    get_shard_indices_replica_ids resolve global_shape global_mesh mesh_axes
  let dbs ← mapME (fun d => do
      let p ← lookupRid table d
      Except.ok (device_put (data_callback p.1) d)) global_mesh.local_devices
  GlobalDeviceArray.init global_shape global_mesh mesh_axes dbs
    (some ⟨table, global_mesh.local_devices⟩) current_process true
    jax_enable_checks

/-! ### Helper lemmas -/

lemma bind_ok_eq (a : α) (f : α → Except GdaError β) :
    (Except.ok a >>= f) = f a := rfl

lemma bind_error_eq (e : GdaError) (f : α → Except GdaError β) :
    ((Except.error e : Except GdaError α) >>= f) = Except.error e := rfl

lemma get_shard_shape_length (gs : List Nat) (mesh : Mesh)
    (axes : List MeshAxis) :
    (get_shard_shape gs mesh axes).length = gs.length := by
  simp only [get_shard_shape, List.length_append, List.length_map,
    List.length_zip, List.length_drop]
  omega

/-- Well-formed partition entries: mesh-axis names are nonempty and tuples
name at least one axis (so Python truthiness matches "assigned"). -/
def MeshAxis.wf : MeshAxis → Prop
  | .unassigned => True
  | .single n => n ≠ ""
  | .tuple ns => ns ≠ []

/-- C2: the shard-shape calculator keeps the rank of the global shape; each
axis covered by the partition assignment is the global size for an
unassigned axis, the global size integer-divided by the named mesh axis's
size for a single assignment, and integer-divided by the product of the
named sizes for a tuple assignment; trailing axes copy the global size.
(No divisibility condition is required anywhere.) -/
theorem c2_shard_shape_calculator (gs : List Nat) (mesh : Mesh)
    (axes : List MeshAxis) (hwf : ∀ ax ∈ axes, ax.wf) :
    (get_shard_shape gs mesh axes).length = gs.length ∧
    (∀ (i g : Nat) (ax : MeshAxis), gs[i]? = some g → axes[i]? = some ax →
      (get_shard_shape gs mesh axes)[i]? = some ((match ax with
        | MeshAxis.unassigned => g
        | MeshAxis.single n => g / mesh.axisSize n
        | MeshAxis.tuple ns => g / (ns.map mesh.axisSize).prod : Nat))) ∧
    (∀ (i g : Nat), gs[i]? = some g → axes.length ≤ i →
      (get_shard_shape gs mesh axes)[i]? = some g) := by
  refine ⟨get_shard_shape_length gs mesh axes, ?_, ?_⟩
  · intro i g ax hg ha
    have hig : i < gs.length := by
      by_contra hlt
      rw [List.getElem?_eq_none (by omega)] at hg
      cases hg
    have hia : i < axes.length := by
      by_contra hlt
      rw [List.getElem?_eq_none (by omega)] at ha
      cases ha
    have hzip : (axes.zip gs)[i]? = some (ax, g) :=
      List.getElem?_zip_eq_some.mpr ⟨ha, hg⟩
    have hax : ax ∈ axes := by
      have := List.getElem?_eq_some.mp ha
      obtain ⟨hlt, hval⟩ := this
      exact hval ▸ List.getElem_mem hlt
    have hwfa := hwf ax hax
    simp only [get_shard_shape]
    rw [List.getElem?_append,
      if_pos (by simp only [List.length_map, List.length_zip]; omega),
      List.getElem?_map, hzip]
    cases ax with
    | unassigned => simp [MeshAxis.isFalsy]
    | single n =>
      simp only [MeshAxis.wf] at hwfa
      simp [MeshAxis.isFalsy, hwfa]
    | tuple ns =>
      simp only [MeshAxis.wf] at hwfa
      simp [MeshAxis.isFalsy, hwfa]
  · intro i g hg hi
    have hig : i < gs.length := by
      by_contra hlt
      rw [List.getElem?_eq_none (by omega)] at hg
      cases hg
    have hchunk : ((axes.zip gs).map (fun p =>
        if p.1.isFalsy then p.2
        else match p.1 with
          | .tuple ns => p.2 / (ns.map mesh.axisSize).prod
          | .single n => p.2 / mesh.axisSize n
          | .unassigned => p.2)).length = min axes.length gs.length := by
      simp [List.length_zip]
    simp only [get_shard_shape]
    rw [List.getElem?_append, if_neg (by rw [hchunk]; omega)]
    rw [List.getElem?_drop]
    rw [hchunk]
    have : min axes.length gs.length + (i - min axes.length gs.length) = i := by
      omega
    rw [this, hg]

/-- C8: the memoized device-table query is extensionally the uncached
computation, so repeated calls with the same key return the same derived
value. -/
theorem c8_cached_equals_uncached (resolve : Resolver) (gs : List Nat)
    (mesh : Mesh) (axes : List MeshAxis) :
    get_shard_indices_replica_ids resolve gs mesh axes =
      get_shard_indices_replica_ids_uncached resolve gs mesh axes := rfl

/-- C10: constructing an aggregate from an empty buffer sequence always
fails — some check raises when checks are enabled, and with all checks
disabled the unconditional `device_buffers[0].dtype` read raises
`IndexError`. -/
theorem c10_empty_buffers_constructor_fails (gs : List Nat) (mesh : Mesh)
    (axes : List MeshAxis) (fp : Option FastPathArgs) (cp : Nat)
    (ec jc : Bool) :
    (∃ e, GlobalDeviceArray.init gs mesh axes [] fp cp ec jc =
      Except.error e) ∧
    GlobalDeviceArray.init gs mesh axes [] fp cp false false =
      Except.error .indexError := by
  constructor
  · cases fp with
    | none =>
      simp only [GlobalDeviceArray.init, deviceOrderOk, List.zip_nil_left,
        List.all_nil, List.length_nil, List.head?_nil, not_true, and_false,
        if_false]
      split
      · exact ⟨_, rfl⟩
      · exact ⟨_, rfl⟩
    | some f =>
      simp only [GlobalDeviceArray.init, deviceOrderOk, List.zip_nil_left,
        List.all_nil, List.length_nil, List.head?_nil, not_true, and_false,
        if_false]
      split
      · exact ⟨_, rfl⟩
      · exact ⟨_, rfl⟩
  · rfl

lemma replicaScan_filter_map (l : List (Device × Index)) (c : Index → Nat)
    (i : Index) :
    ((replicaScan c l).1.filter (fun t => decide (t.2.1 = i))).map
        (fun t => t.2.2)
      = List.range' (c i) ((l.filter (fun p => decide (p.2 = i))).length) := by
  induction l generalizing c with
  | nil => simp [replicaScan]
  | cons hd tl ih =>
    obtain ⟨d, j⟩ := hd
    by_cases hji : j = i
    · subst hji
      simp only [replicaScan, List.filter_cons, decide_eq_true_eq,
        if_pos trivial, List.map_cons, List.length_cons]
      rw [ih]
      simp [List.range'_succ]
    · have hij : ¬ i = j := fun h => hji h.symm
      simp only [replicaScan, List.filter_cons, decide_eq_true_eq]
      rw [if_neg hji, if_neg hji, ih]
      simp [hij]

/-- C3: in the replica assignment loop started with an all-zero counter, the
replica ids of the devices sharing any one `Index` are exactly
`0, 1, 2, ...` in the order the resolver produced those devices; in
particular the first holder of each distinct `Index` gets replica id 0. -/
theorem c3_replica_ids_contiguous (l : List (Device × Index)) (i : Index) :
    ((replicaScan (fun _ => 0) l).1.filter (fun t => decide (t.2.1 = i))).map
        (fun t => t.2.2)
      = List.range ((l.filter (fun p => decide (p.2 = i))).length) := by
  rw [replicaScan_filter_map, List.range_eq_range']

lemma replicaScan_map_fst (c : Index → Nat) (l : List (Device × Index)) :
    (replicaScan c l).1.map (fun t => t.1) = l.map Prod.fst := by
  induction l generalizing c with
  | nil => simp [replicaScan]
  | cons hd tl ih =>
    obtain ⟨d, j⟩ := hd
    simp [replicaScan, ih]

lemma replicaScan_unique_count (l : List (Device × Index)) (c : Index → Nat) :
    (replicaScan c l).2
      = ((l.map Prod.snd).toFinset.filter (fun i => c i = 0)).card := by
  induction l generalizing c with
  | nil => simp [replicaScan]
  | cons hd tl ih =>
    obtain ⟨d, j⟩ := hd
    simp only [replicaScan, List.map_cons, List.toFinset_cons]
    rw [ih]
    have hupdate : ((tl.map Prod.snd).toFinset.filter
          (fun i => (if i = j then c j + 1 else c i) = 0))
        = ((tl.map Prod.snd).toFinset.filter (fun i => c i = 0)).erase j := by
      ext x
      simp only [Finset.mem_filter, Finset.mem_erase]
      by_cases hxj : x = j
      · subst hxj
        simp
      · simp [hxj]
    rw [hupdate, Finset.filter_insert]
    by_cases hcj : c j = 0
    · rw [if_pos hcj, if_pos hcj]
      by_cases hjmem : j ∈ (tl.map Prod.snd).toFinset.filter (fun i => c i = 0)
      · rw [Finset.insert_eq_self.mpr hjmem,
          ← Finset.card_erase_add_one hjmem]
        omega
      · rw [Finset.card_insert_of_not_mem hjmem,
          Finset.erase_eq_of_not_mem hjmem]
        omega
    · rw [if_neg hcj, if_neg hcj]
      have hjnot : j ∉ (tl.map Prod.snd).toFinset.filter (fun i => c i = 0) := by
        simp [Finset.mem_filter, hcj]
      rw [Finset.erase_eq_of_not_mem hjnot]
      omega

lemma replicaScan_unique_card (l : List (Device × Index)) :
    (replicaScan (fun _ => 0) l).2 = (l.map Prod.snd).toFinset.card := by
  rw [replicaScan_unique_count]
  simp

/-- C1: assuming the resolver honours its length contract and the expected
unique-shard product is computable (no zero shard size alongside a nonzero
global size), the engine raises the internal-consistency `RuntimeError` if
and only if the expected count differs from the number of distinct Indices
in the resolved sequence, and on agreement it returns a table whose keys
are exactly the mesh's devices. -/
theorem c1_unique_shard_consistency_check (resolve : Resolver) (gs : List Nat)
    (mesh : Mesh) (axes : List MeshAxis) (e : Nat)
    (hlen : (resolve gs mesh axes).length = mesh.devices.length)
    (hexp : expectedUniqueShards gs (get_shard_shape gs mesh axes) =
      Except.ok e) :
    ((∃ a b, get_shard_indices_replica_ids_uncached resolve gs mesh axes
        = Except.error (.runtimeShardMismatch a b))
      ↔ e ≠ (resolve gs mesh axes).toFinset.card) ∧
    (e = (resolve gs mesh axes).toFinset.card →
      ∃ out, get_shard_indices_replica_ids_uncached resolve gs mesh axes
          = Except.ok out ∧
        out.map (fun t => t.1) = mesh.devices) := by
  have hsnd : (mesh.devices.zip (resolve gs mesh axes)).map Prod.snd
      = resolve gs mesh axes :=
    List.map_snd_zip _ _ (le_of_eq hlen)
  have huniq : (replicaScan (fun _ => 0)
        (mesh.devices.zip (resolve gs mesh axes))).2
      = (resolve gs mesh axes).toFinset.card := by
    rw [replicaScan_unique_card, hsnd]
  simp only [get_shard_indices_replica_ids_uncached]
  rw [if_neg (fun h => h hlen.symm)]
  simp only [hexp]
  by_cases he : e = (resolve gs mesh axes).toFinset.card
  · rw [if_neg (by omega)]
    refine ⟨⟨fun ⟨a, b, hab⟩ => (by cases hab), fun hne => absurd he hne⟩, ?_⟩
    intro _
    refine ⟨_, rfl, ?_⟩
    rw [replicaScan_map_fst]
    exact List.map_fst_zip _ _ (le_of_eq hlen.symm)
  · rw [if_pos (by omega)]
    exact ⟨⟨fun _ => he, fun _ => ⟨_, _, rfl⟩⟩, fun h => absurd h he⟩

lemma expectedDivisors_zero_division (l : List (Nat × Nat)) (g : Nat)
    (hmem : (g, 0) ∈ l) (hg : g ≠ 0) :
    expectedDivisors l = Except.error .zeroDivision := by
  induction l with
  | nil => cases hmem
  | cons hd tl ih =>
    obtain ⟨a, b⟩ := hd
    unfold expectedDivisors
    rcases List.mem_cons.mp hmem with heq | hmem'
    · obtain ⟨ha, hb⟩ := Prod.mk.injEq .. ▸ heq.symm
      subst ha
      subst hb
      rw [if_pos (Or.inl hg), if_pos rfl]
    · by_cases hc : a ≠ 0 ∨ b ≠ 0
      · rw [if_pos hc]
        by_cases hb : b = 0
        · rw [if_pos hb]
        · rw [if_neg hb, ih hmem']
          rfl
      · rw [if_neg hc]
        exact ih hmem'

/-- C9: when some axis has a nonzero global size but the computed shard size
is zero (the grid divisor exceeds the global size, so integer division
truncates to zero), the expected-unique-shard computation divides that
global size by zero and the engine fails with `ZeroDivisionError`, not
with the internal-consistency `RuntimeError`. -/
theorem c9_zero_shard_size_division_by_zero (resolve : Resolver)
    (gs : List Nat) (mesh : Mesh) (axes : List MeshAxis) (i g : Nat)
    (hlen : (resolve gs mesh axes).length = mesh.devices.length)
    (hg : gs[i]? = some g) (hg0 : g ≠ 0)
    (hs : (get_shard_shape gs mesh axes)[i]? = some 0) :
    get_shard_indices_replica_ids_uncached resolve gs mesh axes
      = Except.error .zeroDivision := by
  have hmem : (g, 0) ∈ gs.zip (get_shard_shape gs mesh axes) := by
    have hz : (gs.zip (get_shard_shape gs mesh axes))[i]? = some (g, 0) :=
      List.getElem?_zip_eq_some.mpr ⟨hg, hs⟩
    exact List.getElem?_mem hz
  have hexp : expectedUniqueShards gs (get_shard_shape gs mesh axes)
      = Except.error .zeroDivision := by
    unfold expectedUniqueShards
    rw [if_neg (by rw [get_shard_shape_length]; omega)]
    rw [expectedDivisors_zero_division _ g hmem hg0]
    rfl
  simp only [get_shard_indices_replica_ids_uncached]
  rw [if_neg (fun h => h hlen.symm)]
  simp only [hexp]

lemma create_local_shards_loop_data_present (table : List (Device × Index × Nat))
    (bufs : List Buffer) (shards : List Shard)
    (h : create_local_shards_loop table bufs = .ok shards) :
    ∀ s ∈ shards, s.data.isSome = true := by
  induction bufs generalizing shards with
  | nil =>
    simp only [create_local_shards_loop] at h
    cases h
    simp
  | cons db rest ih =>
    simp only [create_local_shards_loop] at h
    cases hlk : lookupRid table db.device with
    | error e =>
      rw [hlk, bind_error_eq] at h
      cases h
    | ok p =>
      rw [hlk, bind_ok_eq] at h
      cases hrec : create_local_shards_loop table rest with
      | error e =>
        rw [hrec, bind_error_eq] at h
        cases h
      | ok out =>
        rw [hrec, bind_ok_eq] at h
        cases h
        intro s hs
        rcases List.mem_cons.mp hs with hhd | htl
        · subst hhd
          rfl
        · exact ih out hrec s htl

/-- C5: for an aggregate whose mesh device count equals its local-device
count, `global_shards` is exactly `local_shards` — the same shard list —
and every shard in that list carries its data (no data-absent entries). -/
theorem c5_single_process_global_shards (resolve : Resolver)
    (gda : GlobalDeviceArray)
    (h : gda.mesh.devices.length = gda.local_devices.length) :
    global_shards resolve gda = local_shards resolve gda ∧
    ∀ shards, local_shards resolve gda = .ok shards →
      ∀ s ∈ shards, s.data.isSome = true := by
  constructor
  · unfold global_shards
    rw [if_pos h]
  · intro shards hs s hss
    unfold local_shards at hs
    cases hfp : gda.fast_path with
    | some fp =>
      rw [hfp] at hs
      simp only [bind_ok_eq] at hs
      exact create_local_shards_loop_data_present _ _ _ hs s hss
    | none =>
      rw [hfp] at hs
      cases htab : get_shard_indices_replica_ids resolve gda.global_shape
          gda.mesh gda.mesh_axes with
      | error e =>
        rw [htab] at hs
        simp only [bind_error_eq] at hs
        cases hs
      | ok table =>
        rw [htab] at hs
        simp only [bind_ok_eq] at hs
        exact create_local_shards_loop_data_present _ _ _ hs s hss

lemma local_data_nat (gda : GlobalDeviceArray) (i : Nat) (b : Buffer)
    (hb : gda.device_buffers[i]? = some b) :
    local_data gda (i : Int) = .ok b := by
  obtain ⟨hlt, hval⟩ := List.getElem?_eq_some.mp hb
  simp only [local_data]
  rw [if_neg (by omega : ¬ (i : Int) < 0)]
  rw [if_pos ⟨by omega, by exact_mod_cast hlt⟩]
  simp only [Int.toNat_natCast]
  rw [hb]

/-- C4 counterexample: with checks disabled the constructor accepts two local
buffers of different shapes; the first has the global shape, so
`is_fully_replicated` is true, yet not every local buffer's shape equals
the global shape. -/
def dev0 : Device := ⟨0, 0⟩

def dev1 : Device := ⟨1, 0⟩

def dev2 : Device := ⟨2, 0⟩

def cexMesh : Mesh := ⟨fun _ => 1, [dev0, dev1], [dev0, dev1]⟩

def cexBufs : List Buffer := [⟨dev0, ⟨[2], 0, [3, 4]⟩⟩, ⟨dev1, ⟨[1], 0, [3]⟩⟩]

def cexInit : Except GdaError GlobalDeviceArray :=
  GlobalDeviceArray.init [2] cexMesh [] cexBufs none 0 false false

theorem c4_counterexample :
    cexInit.map (fun g => is_fully_replicated g) = .ok (.ok true) ∧
    cexInit.map (fun g => g.device_buffers.all
      (fun b => decide (b.arr.shape = g.global_shape))) = .ok false := by
  constructor
  · rfl
  · rfl

/-- C4 (amended): for every aggregate with at least one local buffer,
`is_fully_replicated` is true iff the global shape equals the shape of the
FIRST local buffer (the code inspects only `local_data(0)`); with checks
disabled the remaining buffers may differ. -/
theorem c4_is_fully_replicated_first_buffer (gda : GlobalDeviceArray)
    (b : Buffer) (hb : gda.device_buffers.head? = some b) :
    (is_fully_replicated gda = .ok true ↔ gda.global_shape = b.arr.shape) := by
  have hb0 : gda.device_buffers[0]? = some b := by
    rwa [← List.head?_eq_getElem?]
  have h0 : local_data gda ((0 : Nat) : Int) = .ok b := local_data_nat gda 0 b hb0
  have h0' : local_data gda (0 : Int) = .ok b := by exact_mod_cast h0
  unfold is_fully_replicated
  rw [h0']
  simp [Except.map]

def c7Buf0 : Buffer := ⟨dev0, ⟨[1], 0, [3]⟩⟩

def c7Buf1 : Buffer := ⟨dev1, ⟨[1], 0, [4]⟩⟩

def c7Gda : GlobalDeviceArray :=
  ⟨[2], cexMesh, [], [c7Buf0, c7Buf1], none, [dev0, dev1], 0, 0⟩

/-- C7 counterexample: the aggregate has 2 local buffers, position `-1` lies
outside `0 ≤ position < 2`, yet `local_data` returns the last buffer
(Python list indexing) instead of failing with a bounds error. -/
theorem c7_counterexample :
    ((-1 : Int) < 0 ∨ (2 : Int) ≤ -1) ∧ local_data c7Gda (-1) = .ok c7Buf1 := by
  constructor
  · left
    decide
  · rfl

/-- C7 (amended): `local_data` follows Python list indexing: positions in
`[0, n)` return the buffer at that position, positions in `[-n, 0)` return
the buffer at `position + n`, and it fails with `IndexError` exactly when
the position lies outside `[-n, n)`. -/
theorem c7_local_data_python_indexing (gda : GlobalDeviceArray) (i : Int) :
    (0 ≤ i → i < gda.device_buffers.length →
      ∃ b, gda.device_buffers[i.toNat]? = some b ∧ local_data gda i = .ok b) ∧
    (-(gda.device_buffers.length : Int) ≤ i → i < 0 →
      ∃ b, gda.device_buffers[(i + gda.device_buffers.length).toNat]? = some b ∧
        local_data gda i = .ok b) ∧
    (local_data gda i = .error .indexError ↔
      (i < -(gda.device_buffers.length : Int) ∨
        (gda.device_buffers.length : Int) ≤ i)) := by
  refine ⟨?_, ?_, ?_⟩
  · intro h0 hn
    have hlt : i.toNat < gda.device_buffers.length := by omega
    refine ⟨gda.device_buffers[i.toNat], List.getElem?_eq_getElem hlt, ?_⟩
    simp only [local_data]
    rw [if_neg (by omega : ¬ i < 0), if_pos ⟨h0, hn⟩,
      List.getElem?_eq_getElem hlt]
  · intro hn h0
    have hlt : (i + gda.device_buffers.length).toNat <
        gda.device_buffers.length := by omega
    refine ⟨gda.device_buffers[(i + gda.device_buffers.length).toNat],
      List.getElem?_eq_getElem hlt, ?_⟩
    simp only [local_data]
    rw [if_pos h0, if_pos ⟨by omega, by omega⟩, List.getElem?_eq_getElem hlt]
  · constructor
    · intro herr
      by_contra hrange
      push_neg at hrange
      obtain ⟨h1, h2⟩ := hrange
      simp only [local_data] at herr
      by_cases hneg : i < 0
      · rw [if_pos hneg, if_pos ⟨by omega, by omega⟩] at herr
        have hlt : (i + (gda.device_buffers.length : Int)).toNat <
            gda.device_buffers.length := by omega
        rw [List.getElem?_eq_getElem hlt] at herr
        cases herr
      · rw [if_neg hneg, if_pos ⟨by omega, by omega⟩] at herr
        have hlt : i.toNat < gda.device_buffers.length := by omega
        rw [List.getElem?_eq_getElem hlt] at herr
        cases herr
    · intro hout
      simp only [local_data]
      by_cases hneg : i < 0
      · rw [if_pos hneg, if_neg (by omega)]
      · rw [if_neg hneg, if_neg (by omega)]

lemma mapME_ok_getElem? {f : α → Except GdaError β} {l : List α}
    {out : List β} (h : mapME f l = .ok out) (i : Nat) (a : α)
    (ha : l[i]? = some a) :
    ∃ b, f a = .ok b ∧ out[i]? = some b := by
  induction l generalizing i out with
  | nil => cases ha
  | cons x xs ih =>
    simp only [mapME] at h
    cases hfx : f x with
    | error e =>
      rw [hfx] at h
      simp only [bind_error_eq] at h
      cases h
    | ok b =>
      rw [hfx] at h
      simp only [bind_ok_eq] at h
      cases hxs : mapME f xs with
      | error e =>
        rw [hxs] at h
        simp only [bind_error_eq] at h
        cases h
      | ok bs =>
        rw [hxs] at h
        simp only [bind_ok_eq] at h
        cases h
        cases i with
        | zero =>
          simp only [List.getElem?_cons_zero] at ha
          cases ha
          exact ⟨b, hfx, by simp⟩
        | succ n =>
          simp only [List.getElem?_cons_succ] at ha ⊢
          exact ih hxs n ha

lemma init_ok_device_buffers {gs : List Nat} {mesh : Mesh}
    {axes : List MeshAxis} {bufs : List Buffer} {fp : Option FastPathArgs}
    {cp : Nat} {ec jc : Bool} {g : GlobalDeviceArray}
    (h : GlobalDeviceArray.init gs mesh axes bufs fp cp ec jc = .ok g) :
    g.device_buffers = bufs := by
  simp only [GlobalDeviceArray.init] at h
  split at h
  · cases h
  · split at h
    · cases h
    · split at h
      · cases h
      · split at h
        · cases h
        · split at h
          · cases h
          · cases h
            rfl

/-- C6: if `from_callback` with callback `f` succeeds, then for each valid
position `i`, reading back `local_data(i)` yields exactly `f` applied to
the Index that the device table assigns to the `i`-th local device, placed
on that `i`-th local device. -/
theorem c6_from_callback_roundtrip (resolve : Resolver) (gs : List Nat)
    (mesh : Mesh) (axes : List MeshAxis) (cb : Index → HostArray) (cp : Nat)
    (jc : Bool) (gda : GlobalDeviceArray) (i : Nat) (d : Device)
    (hok : from_callback resolve gs mesh axes cb cp jc = .ok gda)
    (hd : mesh.local_devices[i]? = some d) :
    ∃ table p,
      get_shard_indices_replica_ids resolve gs mesh axes = .ok table ∧
      lookupRid table d = .ok p ∧
      local_data gda (i : Int) = .ok (device_put (cb p.1) d) := by
  unfold from_callback at hok
  cases htab : get_shard_indices_replica_ids resolve gs mesh axes with
  | error e =>
    rw [htab] at hok
    simp only [bind_error_eq] at hok
    cases hok
  | ok table =>
    rw [htab] at hok
    simp only [bind_ok_eq] at hok
    cases hdbs : mapME (fun d => do
        let p ← lookupRid table d
        Except.ok (device_put (cb p.1) d)) mesh.local_devices with
    | error e =>
      rw [hdbs] at hok
      simp only [bind_error_eq] at hok
      cases hok
    | ok dbs =>
      rw [hdbs] at hok
      simp only [bind_ok_eq] at hok
      obtain ⟨b, hfb, hbs⟩ := mapME_ok_getElem? hdbs i d hd
      cases hlk : lookupRid table d with
      | error e =>
        rw [hlk] at hfb
        simp only [bind_error_eq] at hfb
        cases hfb
      | ok p =>
        rw [hlk] at hfb
        simp only [bind_ok_eq] at hfb
        cases hfb
        refine ⟨table, p, rfl, hlk, ?_⟩
        have hgb : gda.device_buffers = dbs := init_ok_device_buffers hok
        rw [← hgb] at hbs
        exact local_data_nat gda i _ hbs

/-! ### Concrete witnesses -/

def wIdxA : Index := [(0, 1)]

def wIdxB : Index := [(1, 2)]

def wAxesX : List MeshAxis := [MeshAxis.single "x"]

def wMesh2x : Mesh := ⟨fun _ => 2, [dev0, dev1], [dev0, dev1]⟩

def wResolve2 : Resolver := fun _ _ _ => [wIdxA, wIdxB]

theorem c1_witness :
    (wResolve2 [2] wMesh2x wAxesX).length = wMesh2x.devices.length ∧
    expectedUniqueShards [2] (get_shard_shape [2] wMesh2x wAxesX) =
      Except.ok 2 ∧
    (((∃ a b, get_shard_indices_replica_ids_uncached wResolve2 [2] wMesh2x
          wAxesX = Except.error (.runtimeShardMismatch a b))
        ↔ 2 ≠ (wResolve2 [2] wMesh2x wAxesX).toFinset.card) ∧
      (2 = (wResolve2 [2] wMesh2x wAxesX).toFinset.card →
        ∃ out, get_shard_indices_replica_ids_uncached wResolve2 [2] wMesh2x
            wAxesX = Except.ok out ∧
          out.map (fun t => t.1) = wMesh2x.devices)) :=
  ⟨rfl, rfl,
    c1_unique_shard_consistency_check wResolve2 [2] wMesh2x wAxesX 2 rfl rfl⟩

def wMesh42 : Mesh := ⟨fun s => if s = "x" then 4 else 2, [], []⟩

def wAxesXY : List MeshAxis := [MeshAxis.single "x", MeshAxis.single "y"]

theorem c2_witness :
    (∀ ax ∈ wAxesXY, MeshAxis.wf ax) ∧
    (get_shard_shape [8, 2] wMesh42 wAxesXY)[0]? =
      some (8 / wMesh42.axisSize "x") := by
  have hwf : ∀ ax ∈ wAxesXY, MeshAxis.wf ax := by
    intro ax hax
    simp only [wAxesXY, List.mem_cons, List.not_mem_nil, or_false] at hax
    rcases hax with rfl | rfl
    · show ("x" : String) ≠ ""
      decide
    · show ("y" : String) ≠ ""
      decide
  exact ⟨hwf, (c2_shard_shape_calculator [8, 2] wMesh42 wAxesXY hwf).2.1 0 8
    (MeshAxis.single "x") rfl rfl⟩

def w4Gda : GlobalDeviceArray :=
  ⟨[1], cexMesh, [], [c7Buf0, c7Buf1], none, [dev0, dev1], 0, 0⟩

theorem c4_witness :
    w4Gda.device_buffers.head? = some c7Buf0 ∧
    (is_fully_replicated w4Gda = .ok true ↔
      w4Gda.global_shape = c7Buf0.arr.shape) :=
  ⟨rfl, c4_is_fully_replicated_first_buffer w4Gda c7Buf0 rfl⟩

def w5Buf : Buffer := ⟨dev0, ⟨[2], 0, [5, 7]⟩⟩

def w5Mesh : Mesh := ⟨fun _ => 1, [dev0], [dev0]⟩

def w5Gda : GlobalDeviceArray :=
  ⟨[2], w5Mesh, [], [w5Buf], some ⟨[(dev0, wIdxA, 0)], [dev0]⟩, [dev0], 0, 0⟩

def w5Resolve : Resolver := fun _ _ _ => [wIdxA]

theorem c5_witness :
    w5Gda.mesh.devices.length = w5Gda.local_devices.length ∧
    (global_shards w5Resolve w5Gda = local_shards w5Resolve w5Gda ∧
      ∀ shards, local_shards w5Resolve w5Gda = .ok shards →
        ∀ s ∈ shards, s.data.isSome = true) :=
  ⟨rfl, c5_single_process_global_shards w5Resolve w5Gda rfl⟩

def w6Cb : Index → HostArray := fun _ => ⟨[1], 7, [3]⟩

def w6Gda : GlobalDeviceArray :=
  match from_callback wResolve2 [2] wMesh2x wAxesX w6Cb 0 false with
  | .ok g => g
  | .error _ => default

theorem c6_witness :
    from_callback wResolve2 [2] wMesh2x wAxesX w6Cb 0 false = .ok w6Gda ∧
    wMesh2x.local_devices[0]? = some dev0 ∧
    (∃ table p,
      get_shard_indices_replica_ids wResolve2 [2] wMesh2x wAxesX =
        .ok table ∧
      lookupRid table dev0 = .ok p ∧
      local_data w6Gda ((0 : Nat) : Int) = .ok (device_put (w6Cb p.1) dev0)) :=
  ⟨rfl, rfl, c6_from_callback_roundtrip wResolve2 [2] wMesh2x wAxesX w6Cb 0
    false w6Gda 0 dev0 rfl rfl⟩

theorem c7_witness :
    (0 : Int) ≤ 1 ∧ (1 : Int) < c7Gda.device_buffers.length ∧
    (∃ b, c7Gda.device_buffers[(1 : Int).toNat]? = some b ∧
      local_data c7Gda 1 = .ok b) :=
  ⟨by decide, by decide,
    (c7_local_data_python_indexing c7Gda 1).1 (by decide) (by decide)⟩

def wMesh3 : Mesh := ⟨fun _ => 3, [dev0, dev1, dev2], [dev0, dev1, dev2]⟩

def wResolve3 : Resolver := fun _ _ _ => [wIdxA, wIdxA, wIdxA]

theorem c9_witness :
    (wResolve3 [2] wMesh3 wAxesX).length = wMesh3.devices.length ∧
    ([2] : List Nat)[0]? = some 2 ∧ (2 : Nat) ≠ 0 ∧
    (get_shard_shape [2] wMesh3 wAxesX)[0]? = some 0 ∧
    get_shard_indices_replica_ids_uncached wResolve3 [2] wMesh3 wAxesX =
      Except.error .zeroDivision :=
  ⟨rfl, rfl, by decide, rfl,
    c9_zero_shard_size_division_by_zero wResolve3 [2] wMesh3 wAxesX 0 2 rfl
      rfl (by decide) rfl⟩

end GDA
